import Mathlib

/-!
Verification of the Bullen audio router engine.

This file is a shallow embedding of the engine code of the repository:
`app/engine/audio_engine.py` (simple selected-channel engine),
`app/engine/matrix_audio_engine.py` (matrix-routing engine) and the
channel-validation helper of `app/server/app.py`, together with theorems
checking the specification claims.

Modelling conventions:
- Python floats are modelled as real numbers (`ℝ`); NumPy sample buffers as
  `List ℝ`; Python lists as Lean lists; Python ints as `ℤ` where a negative
  value can reach the code, `ℕ` otherwise.
- A Python `dict` keyed by `(input, output)` pairs is modelled as an
  association list in insertion order (`dictSet` / `dictPop` below reproduce
  dict assignment and `dict.pop`).
- A bounded `queue.Queue` is a list together with its capacity;
  `put_nowait` succeeding or raising `queue.Full` is the `recEnqueue` branch.
- Python list indexing with a possibly negative index is `pyIndex`
  (negative indices wrap; an out-of-range access, an `IndexError`, is `none`).
- The JACK process callbacks mutate only the recording queues and drop
  counters of the engine object (the VU accumulator fields, which no claim
  mentions, are not modelled); they are embedded as pure functions from the
  engine state and the per-period input buffers to the new state and the
  output buffers.
- `np.tanh` is transcendental, so the matrix process callback takes the
  soft-clip function as an explicit parameter `clip`; every theorem about it
  instantiates `clip := Real.tanh`, the exact function of the source.
-/

namespace Bullen

/-- Embeds `db_to_linear` of `audio_engine.py`: `10.0 ** (db / 20.0)`
(real exponentiation). -/
noncomputable def db_to_linear (db : ℝ) : ℝ := (10 : ℝ) ^ (db / 20)

/-- Embeds `linear_to_db` of `audio_engine.py`:
`lin = max(1e-12, lin); return 20.0 * math.log10(lin)`. -/
noncomputable def linear_to_db (lin : ℝ) : ℝ := 20 * Real.logb 10 (max 1e-12 lin)

/-- Elementwise product of a NumPy buffer with a scalar (`buf * g`). -/
def scaleBuf (g : ℝ) (buf : List ℝ) : List ℝ := buf.map (fun x => x * g)

/-- Elementwise sum of two NumPy buffers (`a + b`). -/
def addBuf (a b : List ℝ) : List ℝ := List.zipWith (fun x y => x + y) a b

/-- An all-zero buffer of the given length (`np.zeros(frames)`). -/
def zeroBuf (frames : Nat) : List ℝ := List.replicate frames 0

/-- Embeds `g = 0.0 if mutes[i] else gains[i]`, the per-channel effective
gain used by both engines. -/
def effective_gain (gains : List ℝ) (mutes : List Bool) (i : Nat) : ℝ :=
  if mutes.getD i false then 0 else gains.getD i 0

/-- Embeds one `put_nowait` attempt on a bounded `queue.Queue` of capacity
`cap` holding `q`, with drop counter `drops`: on success the block is
appended, on `queue.Full` the drop counter is incremented
(`_process` recording loop of both engines). -/
def recEnqueue (cap : Nat) (q : List (List ℝ)) (raw : List ℝ) (drops : Nat) :
    List (List ℝ) × Nat :=
  if q.length < cap then (q ++ [raw], drops) else (q, drops + 1)

/-- Embeds the recording loop body over a list of channel indices: for each
index `i`, the raw (pre-gain, pre-mute) input buffer `inputs[i]` is copied
and enqueued non-blockingly onto queue `i`. -/
def recLoop (cap : Nat) (inputs : List (List ℝ)) :
    List Nat → List (List (List ℝ)) × List Nat → List (List (List ℝ)) × List Nat
  | [], st => st
  | i :: rest, st =>
      let e := recEnqueue cap (st.1.getD i []) (inputs.getD i []) (st.2.getD i 0)
      recLoop cap inputs rest (st.1.set i e.1, st.2.set i e.2)

/-- Embeds `for i, inport in enumerate(self.inports): ... put_nowait(raw)`
over all `n` input channels. -/
def recAll (cap : Nat) (qs : List (List (List ℝ))) (ds : List Nat)
    (inputs : List (List ℝ)) (n : Nat) : List (List (List ℝ)) × List Nat :=
  recLoop cap inputs (List.range n) (qs, ds)

/-- State of the simple engine `AudioEngine` of `audio_engine.py`: the
fields of the Python object that the modelled methods read or write. -/
structure AudioEngine where
  num_inputs : Nat
  num_outputs : Nat
  record_queue_size : Nat
  record_enabled : Bool
  rec_started : Bool
  selected_ch : Int
  gains : List ℝ
  mutes : List Bool
  rec_queues : List (List (List ℝ))
  rec_drop_counts : List Nat

/-- Embeds `AudioEngine.set_selected_channel`:
`self.selected_ch = max(0, min(self.num_inputs - 1, int(ch_index)))`. -/
def AudioEngine.set_selected_channel (s : AudioEngine) (ch_index : Int) : AudioEngine :=
  { s with selected_ch := max 0 (min ((s.num_inputs : Int) - 1) ch_index) }

/-- Embeds `AudioEngine.set_gain_linear`: validated index, gain clamped to
`max(0.0, gain)`; an out-of-range index leaves the state unchanged. -/
def AudioEngine.set_gain_linear (s : AudioEngine) (ch_index : Int) (gain : ℝ) : AudioEngine :=
  if 0 ≤ ch_index ∧ ch_index < (s.num_inputs : Int) then
    { s with gains := s.gains.set ch_index.toNat (max 0 gain) }
  else s

/-- Embeds `AudioEngine.set_gain_db`:
`self.set_gain_linear(ch_index, db_to_linear(gain_db))`. -/
noncomputable def AudioEngine.set_gain_db (s : AudioEngine) (ch_index : Int) (gain_db : ℝ) :
    AudioEngine :=
  s.set_gain_linear ch_index (db_to_linear gain_db)

/-- Embeds `AudioEngine.set_mute`: validated index, stores `bool(mute)`. -/
def AudioEngine.set_mute (s : AudioEngine) (ch_index : Int) (mute : Bool) : AudioEngine :=
  if 0 ≤ ch_index ∧ ch_index < (s.num_inputs : Int) then
    { s with mutes := s.mutes.set ch_index.toNat mute }
  else s

/-- The dictionary returned by `AudioEngine.get_state` (the fields the
claims mention; the JACK samplerate/blocksize and VU fields are external
or unmodelled). -/
structure EngineStateReport where
  selected_channel : Int
  gains_linear : List ℝ
  gains_db : List ℝ
  mutes : List Bool
  recording : Bool
  rec_dropped_buffers : List Nat

/-- Embeds `AudioEngine.get_state`: `selected_channel = selected_ch + 1`,
`gains_linear = gains.tolist()`, `gains_db = [linear_to_db(g) for g in gains]`,
plus mutes, recording flag and drop counters. -/
noncomputable def AudioEngine.get_state (s : AudioEngine) : EngineStateReport :=
  { selected_channel := s.selected_ch + 1
    gains_linear := s.gains
    gains_db := s.gains.map linear_to_db
    mutes := s.mutes
    recording := s.record_enabled
    rec_dropped_buffers := s.rec_drop_counts }

/-- Embeds `_validate_channel` of `app/server/app.py`: a 1-based channel
number outside `1..num_inputs` raises `HTTPException` (modelled `none`);
otherwise the 0-based index `ch - 1` is returned. -/
def validate_channel (num_inputs : Nat) (ch : Int) : Option Nat :=
  if 1 ≤ ch ∧ ch ≤ (num_inputs : Int) then some (ch - 1).toNat else none

/-- Embeds the selection phase of `AudioEngine._process`: the loop body
`if i == sel: route_buf = post_gain` leaves `route_buf = None` unless the
snapshotted selected index names one of the `num_inputs` input ports, in
which case it is the selected input buffer scaled by its effective gain. -/
def AudioEngine.route_buf (s : AudioEngine) (inputs : List (List ℝ)) : Option (List ℝ) :=
  if 0 ≤ s.selected_ch ∧ s.selected_ch < (s.num_inputs : Int) then
    some (scaleBuf (effective_gain s.gains s.mutes s.selected_ch.toNat)
      (inputs.getD s.selected_ch.toNat []))
  else none

/-- Embeds the output phase of `AudioEngine._process`: `route_buf is None`
zeroes every output; otherwise the two-output branch writes the routed
buffer to both ports and the multi-output branch writes it to all ports. -/
def route_outputs (num_outputs frames : Nat) : Option (List ℝ) → List (List ℝ)
  | none => List.replicate num_outputs (zeroBuf frames)
  | some b => if num_outputs = 2 then [b, b] else List.replicate num_outputs b

/-- Embeds `AudioEngine._process`: snapshot (the state argument), routing of
the selected channel to every output, then the non-blocking recording
enqueue of every raw input buffer. Returns the updated engine state and the
output buffers. -/
def AudioEngine.process (s : AudioEngine) (inputs : List (List ℝ)) (frames : Nat) :
    AudioEngine × List (List ℝ) :=
  let outputs := route_outputs s.num_outputs frames (s.route_buf inputs)
  let rp := if s.record_enabled ∧ s.rec_started then
      recAll s.record_queue_size s.rec_queues s.rec_drop_counts inputs s.num_inputs
    else (s.rec_queues, s.rec_drop_counts)
  ({ s with rec_queues := rp.1, rec_drop_counts := rp.2 }, outputs)

/-- Embeds Python dict assignment `m[k] = v` on an insertion-ordered
association list: an existing key is overwritten in place, a new key is
appended. -/
def dictSet (m : List ((Int × Int) × ℝ)) (k : Int × Int) (v : ℝ) :
    List ((Int × Int) × ℝ) :=
  if m.any (fun e => e.1 = k) then m.map (fun e => if e.1 = k then (k, v) else e)
  else m ++ [(k, v)]

/-- Embeds Python `m.pop(k, None)`: removes the entry with key `k`
when present. -/
def dictPop (m : List ((Int × Int) × ℝ)) (k : Int × Int) :
    List ((Int × Int) × ℝ) :=
  m.filter (fun e => e.1 ≠ k)

/-- Embeds Python list indexing `l[i]` of a list of length `len`: a
non-negative index in range resolves to itself, a negative index at least
`-len` wraps around, anything else raises `IndexError` (modelled `none`). -/
def pyIndex (len : Nat) (i : Int) : Option Nat :=
  if 0 ≤ i ∧ i < (len : Int) then some i.toNat
  else if -(len : Int) ≤ i ∧ i < 0 then some ((len : Int) + i).toNat
  else none

/-- State of the matrix engine `MatrixAudioEngine` of
`matrix_audio_engine.py`: the fields of the Python object that the
modelled methods read or write. Routing keys are Python ints, since
`load_routing_preset` inserts preset values unvalidated. -/
structure MatrixAudioEngine where
  num_inputs : Nat
  num_outputs : Nat
  record_enabled : Bool
  rec_started : Bool
  routing_matrix : List ((Int × Int) × ℝ)
  input_gains : List ℝ
  input_mutes : List Bool
  output_gains : List ℝ
  output_mutes : List Bool
  rec_queues : List (List (List ℝ))
  rec_drop_counts : List Nat

/-- Embeds `MatrixAudioEngine.set_route`: validated indices; a gain above
the `0.001` activity threshold stores the route, otherwise the entry is
removed; an out-of-range index leaves the state unchanged. -/
noncomputable def MatrixAudioEngine.set_route (s : MatrixAudioEngine) (input_idx output_idx : Int)
    (gain : ℝ) : MatrixAudioEngine :=
  if 0 ≤ input_idx ∧ input_idx < (s.num_inputs : Int) ∧
      0 ≤ output_idx ∧ output_idx < (s.num_outputs : Int) then
    if gain > 0.001 then
      { s with routing_matrix := dictSet s.routing_matrix (input_idx, output_idx) gain }
    else
      { s with routing_matrix := dictPop s.routing_matrix (input_idx, output_idx) }
  else s

/-- Embeds `MatrixAudioEngine.clear_route`. -/
def MatrixAudioEngine.clear_route (s : MatrixAudioEngine) (input_idx output_idx : Int) :
    MatrixAudioEngine :=
  { s with routing_matrix := dictPop s.routing_matrix (input_idx, output_idx) }

/-- Embeds `MatrixAudioEngine.clear_all_routes`. -/
def MatrixAudioEngine.clear_all_routes (s : MatrixAudioEngine) : MatrixAudioEngine :=
  { s with routing_matrix := [] }

/-- Embeds `MatrixAudioEngine.get_routes`: a copy of the routing matrix. -/
def MatrixAudioEngine.get_routes (s : MatrixAudioEngine) : List ((Int × Int) × ℝ) :=
  s.routing_matrix

/-- Embeds `MatrixAudioEngine.load_routing_preset`: the table is cleared,
then every preset route whose `input` and `output` keys are present is
inserted, with no index or gain validation (the preset list carries the
already-defaulted `gain` value of `route.get('gain', 1.0)`). -/
def MatrixAudioEngine.load_routing_preset (s : MatrixAudioEngine)
    (routes : List ((Option Int × Option Int) × ℝ)) : MatrixAudioEngine :=
  { s with routing_matrix := routes.foldl (fun m r =>
      match r.1.1, r.1.2 with
      | some i, some o => dictSet m (i, o) r.2
      | _, _ => m) [] }

/-- Embeds the input phase of `MatrixAudioEngine._process`: for every input
channel, `self._input_buffers[i] = buf * (0.0 if in_mutes[i] else in_gains[i])`. -/
def MatrixAudioEngine.post_buffers (s : MatrixAudioEngine) (inputs : List (List ℝ)) :
    List (List ℝ) :=
  (List.range s.num_inputs).map (fun i =>
    scaleBuf (effective_gain s.input_gains s.input_mutes i) (inputs.getD i []))

/-- Embeds one iteration of the routing loop of `MatrixAudioEngine._process`:
`if input_idx < num_inputs and output_idx < num_outputs:` (note: a signed
comparison with no lower bound) then
`output_buffers[output_idx] += _input_buffers[input_idx] * route_gain`,
with Python list indexing; `IndexError` is `none`. -/
def applyRoute (nIn nOut : Nat) (post : List (List ℝ)) (outs : List (List ℝ))
    (e : (Int × Int) × ℝ) : Option (List (List ℝ)) :=
  if e.1.1 < (nIn : Int) ∧ e.1.2 < (nOut : Int) then
    match pyIndex nIn e.1.1, pyIndex nOut e.1.2 with
    | some i, some o =>
        some (outs.set o (addBuf (outs.getD o []) (scaleBuf e.2 (post.getD i []))))
    | _, _ => none
  else some outs

/-- Embeds the full routing loop of `MatrixAudioEngine._process` over the
snapshotted routing entries. -/
def applyRoutes (nIn nOut : Nat) (post : List (List ℝ)) :
    List (List ℝ) → List ((Int × Int) × ℝ) → Option (List (List ℝ))
  | outs, [] => some outs
  | outs, e :: rest =>
    match applyRoute nIn nOut post outs e with
    | some outs2 => applyRoutes nIn nOut post outs2 rest
    | none => none

/-- Embeds `MatrixAudioEngine._process`: snapshot (the state argument),
input gain/mute staging, zero-initialized output buffers, the routing
accumulation loop, the per-output gain/mute stage followed by the soft-clip
`np.tanh` (the parameter `clip`; every theorem instantiates
`clip := Real.tanh`), then the non-blocking recording enqueue of every raw
input buffer (queue capacity 16 in this engine). Returns `none` when the
routing loop raises `IndexError`. -/
def MatrixAudioEngine.process (clip : ℝ → ℝ) (s : MatrixAudioEngine)
    (inputs : List (List ℝ)) (frames : Nat) :
    Option (MatrixAudioEngine × List (List ℝ)) :=
  match applyRoutes s.num_inputs s.num_outputs (s.post_buffers inputs)
      (List.replicate s.num_outputs (zeroBuf frames)) s.routing_matrix with
  | none => none
  | some outsR =>
    let finals := (List.range s.num_outputs).map (fun o =>
      (scaleBuf (effective_gain s.output_gains s.output_mutes o) (outsR.getD o [])).map clip)
    let rp := if s.record_enabled ∧ s.rec_started then
        recAll 16 s.rec_queues s.rec_drop_counts inputs s.num_inputs
      else (s.rec_queues, s.rec_drop_counts)
    some ({ s with rec_queues := rp.1, rec_drop_counts := rp.2 }, finals)

/-! Generic list access lemmas used throughout. -/

theorem getD_set_ne {α : Type} (l : List α) {i j : Nat} (a d : α) (h : i ≠ j) :
    (l.set i a).getD j d = l.getD j d := by
  simp [List.getD_eq_getElem?_getD, List.getElem?_set_ne h]

theorem getD_set_self {α : Type} (l : List α) {j : Nat} (a d : α) (h : j < l.length) :
    (l.set j a).getD j d = a := by
  simp [List.getD_eq_getElem?_getD, List.getElem?_set_self, h]

theorem getD_map {α β : Type} (l : List α) (f : α → β) {i : Nat} (h : i < l.length)
    (d : α) (d' : β) : (l.map f).getD i d' = f (l.getD i d) := by
  simp [List.getD_eq_getElem?_getD, List.getElem?_map, List.getElem?_eq_getElem h]

theorem getD_replicate {α : Type} {n i : Nat} (h : i < n) (b d : α) :
    (List.replicate n b).getD i d = b := by
  simp [List.getD_eq_getElem?_getD, List.getElem?_replicate, h]

theorem getD_range_map {α : Type} {n i : Nat} (h : i < n) (f : Nat → α) (d : α) :
    ((List.range n).map f).getD i d = f i := by
  simp [List.getD_eq_getElem?_getD, List.getElem?_map, List.getElem?_range h]

theorem getD_zipWith (f : ℝ → ℝ → ℝ) (a b : List ℝ) {i : Nat}
    (h1 : i < a.length) (h2 : i < b.length) :
    (List.zipWith f a b).getD i 0 = f (a.getD i 0) (b.getD i 0) := by
  rw [List.getD_eq_getElem?_getD, List.getElem?_zipWith,
    List.getElem?_eq_getElem h1, List.getElem?_eq_getElem h2,
    List.getD_eq_getElem?_getD, List.getD_eq_getElem?_getD,
    List.getElem?_eq_getElem h1, List.getElem?_eq_getElem h2]
  rfl

theorem getD_scaleBuf (g : ℝ) (buf : List ℝ) {k : Nat} (h : k < buf.length) :
    (scaleBuf g buf).getD k 0 = buf.getD k 0 * g :=
  getD_map buf (fun x => x * g) h 0 0

theorem length_scaleBuf (g : ℝ) (buf : List ℝ) : (scaleBuf g buf).length = buf.length :=
  List.length_map buf _

theorem getD_zeroBuf {frames k : Nat} (h : k < frames) : (zeroBuf frames).getD k 0 = 0 :=
  getD_replicate h 0 0

/-! Characterization of the recording loop. -/

theorem recLoop_length (cap : Nat) (inputs : List (List ℝ)) (idx : List Nat)
    (st : List (List (List ℝ)) × List Nat) :
    (recLoop cap inputs idx st).1.length = st.1.length ∧
    (recLoop cap inputs idx st).2.length = st.2.length := by
  induction idx generalizing st with
  | nil => exact ⟨rfl, rfl⟩
  | cons i rest ih =>
    simp only [recLoop]
    constructor
    · rw [(ih _).1]; simp
    · rw [(ih _).2]; simp

theorem recLoop_getD_not_mem (cap : Nat) (inputs : List (List ℝ)) (idx : List Nat)
    (st : List (List (List ℝ)) × List Nat) {j : Nat} (hj : j ∉ idx) :
    (recLoop cap inputs idx st).1.getD j [] = st.1.getD j [] ∧
    (recLoop cap inputs idx st).2.getD j 0 = st.2.getD j 0 := by
  induction idx generalizing st with
  | nil => exact ⟨rfl, rfl⟩
  | cons i rest ih =>
    have hij : i ≠ j := fun h => hj (h ▸ List.mem_cons_self i rest)
    have hrest : j ∉ rest := fun h => hj (List.mem_cons_of_mem i h)
    simp only [recLoop]
    have := ih ((st.1.set i (recEnqueue cap (st.1.getD i []) (inputs.getD i [])
      (st.2.getD i 0)).1, st.2.set i (recEnqueue cap (st.1.getD i []) (inputs.getD i [])
      (st.2.getD i 0)).2)) hrest
    exact ⟨this.1.trans (getD_set_ne st.1 _ _ hij),
      this.2.trans (getD_set_ne st.2 _ _ hij)⟩

theorem recLoop_append (cap : Nat) (inputs : List (List ℝ)) (l₁ l₂ : List Nat)
    (st : List (List (List ℝ)) × List Nat) :
    recLoop cap inputs (l₁ ++ l₂) st = recLoop cap inputs l₂ (recLoop cap inputs l₁ st) := by
  induction l₁ generalizing st with
  | nil => rfl
  | cons a rest ih =>
    simp only [List.cons_append, recLoop]
    exact ih _

theorem recAll_getD (cap : Nat) (qs : List (List (List ℝ))) (ds : List Nat)
    (inputs : List (List ℝ)) {n i : Nat} (hi : i < n)
    (hq : n ≤ qs.length) (hd : n ≤ ds.length) :
    (recAll cap qs ds inputs n).1.getD i [] =
      (recEnqueue cap (qs.getD i []) (inputs.getD i []) (ds.getD i 0)).1 ∧
    (recAll cap qs ds inputs n).2.getD i 0 =
      (recEnqueue cap (qs.getD i []) (inputs.getD i []) (ds.getD i 0)).2 := by
  induction n with
  | zero => omega
  | succ m ih =>
    rw [recAll, List.range_succ, recLoop_append]
    rcases Nat.lt_or_ge i m with him | him
    · -- the final iteration (index m) does not touch index i < m
      have ihm := ih him (Nat.le_of_succ_le hq) (Nat.le_of_succ_le hd)
      have hne : m ≠ i := by omega
      simp only [recLoop]
      exact ⟨(getD_set_ne _ _ _ hne).trans ihm.1, (getD_set_ne _ _ _ hne).trans ihm.2⟩
    · -- i = m: the earlier iterations do not touch index m
      have him' : i = m := by omega
      subst him'
      have hnm : i ∉ List.range i := by simp
      have huntouched := recLoop_getD_not_mem cap inputs (List.range i) (qs, ds) hnm
      have hlen := recLoop_length cap inputs (List.range i) (qs, ds)
      simp only [recLoop]
      rw [huntouched.1, huntouched.2]
      exact ⟨getD_set_self _ _ _ (by rw [hlen.1]; exact hq),
        getD_set_self _ _ _ (by rw [hlen.2]; exact hd)⟩

theorem recEnqueue_drops_le (cap : Nat) (q : List (List ℝ)) (raw : List ℝ) (drops : Nat) :
    drops ≤ (recEnqueue cap q raw drops).2 := by
  unfold recEnqueue
  split <;> omega

theorem getD_set_le (l : List Nat) (i j : Nat) (v : Nat) (h : l.getD i 0 ≤ v) :
    l.getD j 0 ≤ (l.set i v).getD j 0 := by
  rcases Nat.decEq i j with hne | heq
  · rw [getD_set_ne l v 0 hne]
  · subst heq
    rcases Nat.lt_or_ge i l.length with hlt | hge
    · rw [getD_set_self l v 0 hlt]; exact h
    · rw [List.set_eq_of_length_le hge]

theorem recLoop_drops_le (cap : Nat) (inputs : List (List ℝ)) (idx : List Nat)
    (st : List (List (List ℝ)) × List Nat) (j : Nat) :
    st.2.getD j 0 ≤ (recLoop cap inputs idx st).2.getD j 0 := by
  induction idx generalizing st with
  | nil => exact Nat.le_refl _
  | cons i rest ih =>
    simp only [recLoop]
    refine Nat.le_trans ?_ (ih _)
    exact getD_set_le st.2 i j _ (recEnqueue_drops_le cap _ _ _)

/-- Models a run of the engine: the host transport invoking the process
callback once per period on a stream of per-period inputs. -/
def AudioEngine.run (s : AudioEngine) : List (List (List ℝ) × Nat) → AudioEngine
  | [] => s
  | p :: rest => ((s.process p.1 p.2).1).run rest

theorem process_drops_le (s : AudioEngine) (inputs : List (List ℝ)) (frames j : Nat) :
    s.rec_drop_counts.getD j 0 ≤ (s.process inputs frames).1.rec_drop_counts.getD j 0 := by
  unfold AudioEngine.process
  split
  · exact recLoop_drops_le s.record_queue_size inputs (List.range s.num_inputs)
      (s.rec_queues, s.rec_drop_counts) j
  · exact Nat.le_refl _

theorem run_drops_le (blocks : List (List (List ℝ) × Nat)) (s : AudioEngine) (j : Nat) :
    s.rec_drop_counts.getD j 0 ≤ (s.run blocks).rec_drop_counts.getD j 0 := by
  induction blocks generalizing s with
  | nil => exact Nat.le_refl _
  | cons p rest ih =>
    exact Nat.le_trans (process_drops_le s p.1 p.2 j) (ih _)

/-! Lemmas about the dB conversion utilities. -/

theorem clamp_floor_eq_rpow : (1e-12 : ℝ) = (10 : ℝ) ^ ((-12 : ℝ)) := by
  rw [show ((-12 : ℝ)) = ((-12 : ℤ) : ℝ) by norm_num, Real.rpow_intCast]
  norm_num

theorem db_to_linear_zero : db_to_linear 0 = 1 := by
  simp [db_to_linear]

theorem db_to_linear_pos (d : ℝ) : 0 < db_to_linear d :=
  Real.rpow_pos_of_pos (by norm_num) _

theorem linear_to_db_zero : linear_to_db 0 = -240 := by
  rw [linear_to_db, max_eq_left (by norm_num), clamp_floor_eq_rpow,
    Real.logb_rpow (by norm_num) (by norm_num)]
  norm_num

theorem clamp_le_db_to_linear (d : ℝ) (h : -240 ≤ d) : 1e-12 ≤ db_to_linear d := by
  rw [clamp_floor_eq_rpow, db_to_linear]
  exact (Real.rpow_le_rpow_left_iff (by norm_num : (1 : ℝ) < 10)).mpr (by linarith)

theorem round_trip_db (d : ℝ) (h : 1e-12 ≤ db_to_linear d) :
    linear_to_db (db_to_linear d) = d := by
  rw [linear_to_db, max_eq_right h, db_to_linear,
    Real.logb_rpow (by norm_num) (by norm_num)]
  ring

theorem linear_to_db_of_ge (g : ℝ) (h : 1e-12 ≤ g) :
    linear_to_db g = 20 * Real.logb 10 g := by
  rw [linear_to_db, max_eq_right h]

/-- C8: `linear_to_db(0.0)` returns the large finite negative sentinel
`20*log10(1e-12) = -240` (the input is clamped to at least `1e-12` before
the logarithm, so the value is finite and negative, never an infinity);
and `db_to_linear(0.0)` returns exactly `1.0`. -/
theorem C8_conversion_edge_cases :
    linear_to_db 0 = -240 ∧ linear_to_db 0 < 0 ∧ db_to_linear 0 = 1 :=
  ⟨linear_to_db_zero, by rw [linear_to_db_zero]; norm_num, db_to_linear_zero⟩

/-- C9: the round-trip dB → linear → dB is the identity on every dB value
whose linear equivalent is at least the `1e-12` clamp floor, and in
particular (exactly, hence within `1e-6`) on each of the representative
values −60, −20, −6, 0, 6, 12 and 20 dB. -/
theorem C9_db_round_trip :
    (∀ d : ℝ, 1e-12 ≤ db_to_linear d → linear_to_db (db_to_linear d) = d) ∧
    linear_to_db (db_to_linear (-60)) = -60 ∧
    linear_to_db (db_to_linear (-20)) = -20 ∧
    linear_to_db (db_to_linear (-6)) = -6 ∧
    linear_to_db (db_to_linear 0) = 0 ∧
    linear_to_db (db_to_linear 6) = 6 ∧
    linear_to_db (db_to_linear 12) = 12 ∧
    linear_to_db (db_to_linear 20) = 20 := by
  refine ⟨round_trip_db, ?_, ?_, ?_, ?_, ?_, ?_, ?_⟩ <;>
    exact round_trip_db _ (clamp_le_db_to_linear _ (by norm_num))

/-- Witness for C9: the general round-trip statement applied at 0 dB, whose
linear value 1 is above the clamp floor. -/
theorem C9_db_round_trip_witness : linear_to_db (db_to_linear 0) = 0 :=
  C9_db_round_trip.1 0 (by rw [db_to_linear_zero]; norm_num)

/-- A concrete two-input, two-output simple-engine state used by witnesses
and counterexamples: unit gains, nothing muted, channel 0 selected,
recording active with queue capacity 4 and empty queues. -/
def engineA : AudioEngine :=
  { num_inputs := 2, num_outputs := 2, record_queue_size := 4,
    record_enabled := true, rec_started := true, selected_ch := 0,
    gains := [1, 1], mutes := [false, false],
    rec_queues := [[], []], rec_drop_counts := [0, 0] }

/-- C5: the engine mutations `set_gain_linear`, `set_gain_db` and `set_mute`
reject an index outside `[0, num_inputs)` leaving the state unchanged; the
control surface rejects `select(c)` for `c` outside `[1, N]` with an error
response; and `set_selected_channel` clamps any integer argument into
`[0, num_inputs)`. -/
theorem C5_index_validation :
    (∀ (s : AudioEngine) (ch : Int) (g gdb : ℝ) (m : Bool),
        ¬ (0 ≤ ch ∧ ch < (s.num_inputs : Int)) →
        s.set_gain_linear ch g = s ∧ s.set_gain_db ch gdb = s ∧ s.set_mute ch m = s) ∧
    (∀ (n : Nat) (c : Int), ¬ (1 ≤ c ∧ c ≤ (n : Int)) → validate_channel n c = none) ∧
    (∀ (s : AudioEngine) (ch : Int), 0 < s.num_inputs →
        0 ≤ (s.set_selected_channel ch).selected_ch ∧
        (s.set_selected_channel ch).selected_ch < (s.num_inputs : Int)) := by
  refine ⟨fun s ch g gdb m h => ⟨if_neg h, if_neg h, if_neg h⟩,
    fun n c h => if_neg h, fun s ch h => ⟨le_max_left 0 _, ?_⟩⟩
  show max 0 (min ((s.num_inputs : Int) - 1) ch) < (s.num_inputs : Int)
  omega

/-- Witness for C5: a concrete out-of-range gain mutation, a concrete
rejected selection, and a concrete clamped selection. -/
theorem C5_index_validation_witness :
    engineA.set_gain_linear 5 2 = engineA ∧ validate_channel 2 3 = none ∧
    0 ≤ (engineA.set_selected_channel 7).selected_ch ∧
    (engineA.set_selected_channel 7).selected_ch < (engineA.num_inputs : Int) :=
  ⟨(C5_index_validation.1 engineA 5 2 0 false (by decide)).1,
   C5_index_validation.2.1 2 3 (by decide),
   (C5_index_validation.2.2 engineA 7 (by decide)).1,
   (C5_index_validation.2.2 engineA 7 (by decide)).2⟩

/-- C7 (amended): for a valid channel `c`, `set_gain_linear(c, g)` followed
by `get_state()` reports `gains_linear[c] = g` for every `g ≥ 0`, reports
`gains_db[c] = 20*log10(g)` exactly for every `g` at or above the `1e-12`
clamp floor (below the floor the report is the `-240`-style sentinel of the
clamp, see the counterexample), and no other channel's reported linear or
dB gain changes. -/
theorem C7_gain_report (s : AudioEngine) (c : Nat) (g : ℝ)
    (hc : c < s.num_inputs) (hlen : s.gains.length = s.num_inputs) (hg : 0 ≤ g) :
    ((s.set_gain_linear c g).get_state).gains_linear.getD c 0 = g ∧
    (1e-12 ≤ g →
      ((s.set_gain_linear c g).get_state).gains_db.getD c 0 = 20 * Real.logb 10 g) ∧
    (∀ j, j ≠ c →
      ((s.set_gain_linear c g).get_state).gains_linear.getD j 0 = s.gains.getD j 0 ∧
      ((s.set_gain_linear c g).get_state).gains_db.getD j 0 =
        (s.get_state).gains_db.getD j 0) := by
  have hcond : (0 : Int) ≤ (c : Int) ∧ (c : Int) < (s.num_inputs : Int) :=
    ⟨Int.natCast_nonneg c, by exact_mod_cast hc⟩
  have hset : s.set_gain_linear c g =
      { s with gains := s.gains.set c (max 0 g) } := by
    rw [AudioEngine.set_gain_linear, if_pos hcond, Int.toNat_natCast]
  have hclength : c < s.gains.length := by omega
  have hgc : (s.gains.set c (max 0 g)).getD c 0 = g := by
    rw [getD_set_self _ _ _ (by simpa using hclength), max_eq_right hg]
  refine ⟨?_, ?_, ?_⟩
  · rw [hset]; exact hgc
  · intro hfloor
    rw [hset]
    show ((s.gains.set c (max 0 g)).map linear_to_db).getD c 0 = _
    rw [getD_map _ _ (by simpa using hclength) 0 0, hgc, linear_to_db_of_ge g hfloor]
  · intro j hj
    rw [hset]
    refine ⟨getD_set_ne _ _ _ (Ne.symm hj), ?_⟩
    show ((s.gains.set c (max 0 g)).map linear_to_db).getD j 0 =
      (s.gains.map linear_to_db).getD j 0
    rcases Nat.lt_or_ge j s.gains.length with hjl | hjl
    · rw [getD_map _ _ (by simpa using hjl) 0 0, getD_map _ _ hjl 0 0,
        getD_set_ne _ _ _ (Ne.symm hj)]
    · rw [List.getD_eq_default _ _ (by simpa using hjl),
        List.getD_eq_default _ _ (by simpa using hjl)]

/-- Witness for C7: setting channel 1 of the concrete engine to linear gain
2 is reported back as 2. -/
theorem C7_gain_report_witness :
    ((engineA.set_gain_linear 1 2).get_state).gains_linear.getD 1 0 = 2 :=
  (C7_gain_report engineA 1 2 (by decide) (by decide) (by norm_num)).1

/-- Counterexample for C7: at gain 0 (allowed by the claim, which covers
`g = 0`) the clamp makes the reported dB value the finite sentinel `-240`,
which is not `20*log10(0)` (the logarithm of zero; in floating point that
expression is `-inf`, and under the real-number model of this file it is
Mathlib's junk value `0` — the reported sentinel differs either way). -/
theorem C7_counterexample :
    ((engineA.set_gain_linear 0 0).get_state).gains_db.getD 0 0 = -240 ∧
    ((engineA.set_gain_linear 0 0).get_state).gains_db.getD 0 0 ≠
      20 * Real.logb 10 0 := by
  have h : ((engineA.set_gain_linear 0 0).get_state).gains_db.getD 0 0 =
      linear_to_db 0 := by
    norm_num [engineA, AudioEngine.set_gain_linear, AudioEngine.get_state]
  rw [h, linear_to_db_zero, Real.logb_zero]
  norm_num

theorem process_snd (s : AudioEngine) (inputs : List (List ℝ)) (frames : Nat) :
    (s.process inputs frames).2 = route_outputs s.num_outputs frames (s.route_buf inputs) := rfl

theorem route_outputs_some (n frames : Nat) (b : List ℝ) :
    route_outputs n frames (some b) = List.replicate n b := by
  rw [route_outputs]
  split
  · rename_i h; subst h; rfl
  · rfl

/-- C1: in simple mode, with the control state snapshotted at the start of
the callback, every output buffer equals the selected channel's input
buffer scaled by its effective gain (0 when muted, else its gain); the
outputs depend only on the selected index, the output count, and the
selected channel's own gain and mute; and without a valid selection every
output is zeroed. -/
theorem C1_simple_mode_routing :
    (∀ (s : AudioEngine) (inputs : List (List ℝ)) (frames : Nat),
        0 ≤ s.selected_ch → s.selected_ch < (s.num_inputs : Int) →
        (s.process inputs frames).2 = List.replicate s.num_outputs
          (scaleBuf (effective_gain s.gains s.mutes s.selected_ch.toNat)
            (inputs.getD s.selected_ch.toNat []))) ∧
    (∀ (s₁ s₂ : AudioEngine) (inputs : List (List ℝ)) (frames : Nat),
        s₁.num_inputs = s₂.num_inputs → s₁.num_outputs = s₂.num_outputs →
        s₁.selected_ch = s₂.selected_ch →
        s₁.gains.getD s₁.selected_ch.toNat 0 = s₂.gains.getD s₂.selected_ch.toNat 0 →
        s₁.mutes.getD s₁.selected_ch.toNat false = s₂.mutes.getD s₂.selected_ch.toNat false →
        (s₁.process inputs frames).2 = (s₂.process inputs frames).2) ∧
    (∀ (s : AudioEngine) (inputs : List (List ℝ)) (frames : Nat),
        ¬ (0 ≤ s.selected_ch ∧ s.selected_ch < (s.num_inputs : Int)) →
        (s.process inputs frames).2 = List.replicate s.num_outputs (zeroBuf frames)) := by
  refine ⟨?_, ?_, ?_⟩
  · intro s inputs frames h0 h1
    rw [process_snd, AudioEngine.route_buf, if_pos ⟨h0, h1⟩, route_outputs_some]
  · intro s₁ s₂ inputs frames hni hno hsel hg hm
    rw [hsel] at hg hm
    rw [process_snd, process_snd, hno]
    congr 1
    rw [AudioEngine.route_buf, AudioEngine.route_buf, hsel, hni]
    simp only [effective_gain, hg, hm]
  · intro s inputs frames h
    rw [process_snd, AudioEngine.route_buf, if_neg h]
    rfl

/-- Witness for C1: the routing equation evaluated at the concrete engine
(channel 0 selected, unit gain, unmuted) on a concrete two-channel period. -/
theorem C1_simple_mode_routing_witness :
    (engineA.process [[1, 2], [3, 4]] 2).2 = List.replicate engineA.num_outputs
      (scaleBuf (effective_gain engineA.gains engineA.mutes engineA.selected_ch.toNat)
        ([[1, 2], [3, 4]].getD engineA.selected_ch.toNat [])) :=
  C1_simple_mode_routing.1 engineA [[1, 2], [3, 4]] 2 (by decide) (by decide)

theorem process_fst_rec (s : AudioEngine) (inputs : List (List ℝ)) (frames : Nat)
    (h1 : s.record_enabled = true) (h2 : s.rec_started = true) :
    (s.process inputs frames).1 = { s with
      rec_queues :=
        (recAll s.record_queue_size s.rec_queues s.rec_drop_counts inputs s.num_inputs).1,
      rec_drop_counts :=
        (recAll s.record_queue_size s.rec_queues s.rec_drop_counts inputs s.num_inputs).2 } := by
  simp only [AudioEngine.process, h1, h2, and_self, if_true]

theorem recEnqueue_full (cap : Nat) (q : List (List ℝ)) (raw : List ℝ) (drops : Nat)
    (h : cap ≤ q.length) : recEnqueue cap q raw drops = (q, drops + 1) := by
  rw [recEnqueue, if_neg (by omega)]

/-- C6: in a callback where recording is active and channel `i`'s bounded
queue is full, the period's block for channel `i` is discarded and its drop
counter increases by exactly one, while the control fields of the engine
are untouched; drop counters never decrease, neither within one callback
nor over a whole run of callbacks. The embedded callback is a total
function: the `queue.Full` exception is consumed inside it, as the
counter-increment branch. -/
theorem C6_queue_full_drop :
    (∀ (s : AudioEngine) (inputs : List (List ℝ)) (frames i : Nat),
        s.record_enabled = true → s.rec_started = true →
        i < s.num_inputs → s.num_inputs ≤ s.rec_queues.length →
        s.num_inputs ≤ s.rec_drop_counts.length →
        s.record_queue_size ≤ (s.rec_queues.getD i []).length →
        (s.process inputs frames).1.rec_queues.getD i [] = s.rec_queues.getD i [] ∧
        (s.process inputs frames).1.rec_drop_counts.getD i 0 =
          s.rec_drop_counts.getD i 0 + 1 ∧
        (s.process inputs frames).1.gains = s.gains ∧
        (s.process inputs frames).1.mutes = s.mutes ∧
        (s.process inputs frames).1.selected_ch = s.selected_ch) ∧
    (∀ (s : AudioEngine) (inputs : List (List ℝ)) (frames j : Nat),
        s.rec_drop_counts.getD j 0 ≤ (s.process inputs frames).1.rec_drop_counts.getD j 0) ∧
    (∀ (s : AudioEngine) (blocks : List (List (List ℝ) × Nat)) (j : Nat),
        s.rec_drop_counts.getD j 0 ≤ (s.run blocks).rec_drop_counts.getD j 0) := by
  refine ⟨?_, process_drops_le, fun s blocks j => run_drops_le blocks s j⟩
  intro s inputs frames i h1 h2 hi hq hd hfull
  rw [process_fst_rec s inputs frames h1 h2]
  have hchar := recAll_getD s.record_queue_size s.rec_queues s.rec_drop_counts inputs hi hq hd
  rw [recEnqueue_full _ _ _ _ hfull] at hchar
  exact ⟨hchar.1, hchar.2, rfl, rfl, rfl⟩

/-- A concrete engine state whose channel-0 recording queue (capacity 1) is
already full. -/
def engineFull : AudioEngine :=
  { engineA with record_queue_size := 1, rec_queues := [[[0]], []] }

/-- Witness for C6: on the concrete full-queue engine, one callback leaves
queue 0 unchanged and bumps drop counter 0 from 0 to 1. -/
theorem C6_queue_full_drop_witness :
    (engineFull.process [[5], [6]] 1).1.rec_queues.getD 0 [] =
      engineFull.rec_queues.getD 0 [] ∧
    (engineFull.process [[5], [6]] 1).1.rec_drop_counts.getD 0 0 =
      engineFull.rec_drop_counts.getD 0 0 + 1 :=
  ⟨(C6_queue_full_drop.1 engineFull [[5], [6]] 1 0 rfl rfl (by decide) (by decide)
      (by decide) (by decide)).1,
   (C6_queue_full_drop.1 engineFull [[5], [6]] 1 0 rfl rfl (by decide) (by decide)
      (by decide) (by decide)).2.1⟩

/-! Routing-table lemmas for the matrix engine. -/

/-- Every entry of the routing table is strictly above the `0.001`
activity threshold of `set_route`. -/
def routeInvariant (m : List ((Int × Int) × ℝ)) : Prop :=
  ∀ e ∈ m, (0.001 : ℝ) < e.2

theorem mem_dictSet {m : List ((Int × Int) × ℝ)} {k : Int × Int} {v : ℝ}
    {e : (Int × Int) × ℝ} (h : e ∈ dictSet m k v) : e ∈ m ∨ e = (k, v) := by
  rw [dictSet] at h
  split at h
  · obtain ⟨a, ha, hfa⟩ := List.mem_map.mp h
    by_cases hk : a.1 = k
    · right; rw [if_pos hk] at hfa; exact hfa.symm
    · left; rw [if_neg hk] at hfa; exact hfa ▸ ha
  · rcases List.mem_append.mp h with h1 | h1
    · exact Or.inl h1
    · exact Or.inr (List.mem_singleton.mp h1)

theorem mem_dictPop {m : List ((Int × Int) × ℝ)} {k : Int × Int}
    {e : (Int × Int) × ℝ} :
    e ∈ dictPop m k ↔ e ∈ m ∧ e.1 ≠ k := by
  rw [dictPop, List.mem_filter]
  simp

theorem dictSet_nil (k : Int × Int) (v : ℝ) : dictSet [] k v = [(k, v)] := rfl

/-- A concrete two-input, two-output matrix-engine state with an empty
routing table, unit gains, nothing muted and recording inactive. -/
def matrixA : MatrixAudioEngine :=
  { num_inputs := 2, num_outputs := 2, record_enabled := false, rec_started := false,
    routing_matrix := [], input_gains := [1, 1], input_mutes := [false, false],
    output_gains := [1, 1], output_mutes := [false, false],
    rec_queues := [[], []], rec_drop_counts := [0, 0] }

/-- C4 (amended): every entry of the routing table has gain above the
`0.001` epsilon, and this invariant is preserved by `set_route`,
`clear_route` and `clear_all_routes` (but not by `load_routing_preset`,
which inserts preset entries unvalidated — see the counterexample);
`set_route(i, o, 0.3)` on an empty table with valid indices makes
`get_routes()` exactly that one entry; `set_route` with near-zero gain
removes the entry (membership afterwards is membership before minus the
key); and `clear_all_routes()` empties the table. -/
theorem C4_routing_invariant :
    (∀ (s : MatrixAudioEngine) (i o : Int) (g : ℝ),
        routeInvariant s.routing_matrix →
        routeInvariant (s.set_route i o g).routing_matrix) ∧
    (∀ (s : MatrixAudioEngine) (i o : Int),
        routeInvariant s.routing_matrix →
        routeInvariant (s.clear_route i o).routing_matrix) ∧
    (∀ s : MatrixAudioEngine, routeInvariant s.clear_all_routes.routing_matrix) ∧
    (∀ (s : MatrixAudioEngine) (i o : Int),
        s.routing_matrix = [] →
        0 ≤ i → i < (s.num_inputs : Int) → 0 ≤ o → o < (s.num_outputs : Int) →
        (s.set_route i o 0.3).get_routes = [((i, o), 0.3)]) ∧
    (∀ (s : MatrixAudioEngine) (i o : Int) (g : ℝ),
        g ≤ 0.001 →
        ∀ e : (Int × Int) × ℝ,
          e ∈ (MatrixAudioEngine.set_route s i o g).get_routes ↔
            (e ∈ s.get_routes ∧ e.1 ≠ (i, o)) ∨
            (e ∈ s.get_routes ∧ ¬ (0 ≤ i ∧ i < (s.num_inputs : Int) ∧
              0 ≤ o ∧ o < (s.num_outputs : Int)))) ∧
    (∀ s : MatrixAudioEngine, s.clear_all_routes.get_routes = []) := by
  refine ⟨?_, ?_, ?_, ?_, ?_, ?_⟩
  · intro s i o g hinv
    rw [MatrixAudioEngine.set_route]
    split
    · split
      · intro e he
        rcases mem_dictSet he with h1 | h1
        · exact hinv e h1
        · rw [h1]; assumption
      · intro e he
        exact hinv e (mem_dictPop.mp he).1
    · exact hinv
  · intro s i o hinv e he
    exact hinv e (mem_dictPop.mp he).1
  · intro s e he
    exact absurd he (List.not_mem_nil e)
  · intro s i o hnil h1 h2 h3 h4
    rw [MatrixAudioEngine.get_routes, MatrixAudioEngine.set_route,
      if_pos ⟨h1, h2, h3, h4⟩, if_pos (by norm_num)]
    rw [hnil]
    rfl
  · intro s i o g hg e
    rw [MatrixAudioEngine.get_routes, MatrixAudioEngine.set_route]
    split
    · rename_i hrange
      rw [if_neg (by linarith)]
      show e ∈ dictPop s.routing_matrix (i, o) ↔ _
      rw [mem_dictPop]
      constructor
      · exact fun h => Or.inl h
      · rintro (h | h)
        · exact h
        · exact absurd hrange h.2
    · rename_i hrange
      constructor
      · intro h; exact Or.inr ⟨h, hrange⟩
      · rintro (h | h) <;> exact h.1
  · intro s
    rfl

/-- Witness for C4: setting route (0, 1) at gain 0.3 on the concrete empty
matrix engine yields exactly that routing table. -/
theorem C4_routing_invariant_witness :
    (matrixA.set_route 0 1 0.3).get_routes = [((0, 1), 0.3)] :=
  C4_routing_invariant.2.2.2.1 matrixA 0 1 rfl (by decide) (by decide) (by decide)
    (by decide)

/-- Counterexample for C4: `load_routing_preset` performs no gain
validation, so a preset route with gain 0 produces a table entry that
violates the strictly-positive-epsilon invariant the claim asserts for
preset-produced tables. -/
theorem C4_counterexample :
    ((0, 0), (0 : ℝ)) ∈ (matrixA.load_routing_preset [((some 0, some 0), 0)]).get_routes ∧
    ¬ ((0.001 : ℝ) < 0) := by
  constructor
  · show ((0, 0), (0 : ℝ)) ∈ dictSet [] (0, 0) 0
    rw [dictSet_nil]
    exact List.mem_singleton.mpr rfl
  · norm_num

/-! Characterization of the matrix routing accumulation. -/

/-- Sample `k` of output buffer `o` in a list of output buffers. -/
def getSample (outs : List (List ℝ)) (o k : Nat) : ℝ := (outs.getD o []).getD k 0

/-- Modelled from the spec: "for every active route `(i,o,g)` the output
accumulates `post[i] * g`" — the sample-level sum of the contributions of
all routes into output `o`, used as the specification-side description
that the routing loop `applyRoute`/`applyRoutes` is proven to satisfy. -/
def routeSampleSum (post : List (List ℝ)) (R : List ((Int × Int) × ℝ)) (o k : Nat) : ℝ :=
  (R.map (fun e => if e.1.2 = (o : Int)
    then (post.getD e.1.1.toNat []).getD k 0 * e.2 else 0)).sum

/-- Every routing entry is a valid in-range (input, output) pair. -/
def wfRoutes (nIn nOut : Nat) (R : List ((Int × Int) × ℝ)) : Prop :=
  ∀ e ∈ R, 0 ≤ e.1.1 ∧ e.1.1 < (nIn : Int) ∧ 0 ≤ e.1.2 ∧ e.1.2 < (nOut : Int)

theorem pyIndex_of_nonneg {len : Nat} {i : Int} (h0 : 0 ≤ i) (h1 : i < (len : Int)) :
    pyIndex len i = some i.toNat := by
  rw [pyIndex, if_pos ⟨h0, h1⟩]

theorem applyRoute_wf (nIn nOut : Nat) (post outs : List (List ℝ))
    (e : (Int × Int) × ℝ) (h0 : 0 ≤ e.1.1) (h1 : e.1.1 < (nIn : Int))
    (h2 : 0 ≤ e.1.2) (h3 : e.1.2 < (nOut : Int)) :
    applyRoute nIn nOut post outs e = some (outs.set e.1.2.toNat
      (addBuf (outs.getD e.1.2.toNat []) (scaleBuf e.2 (post.getD e.1.1.toNat [])))) := by
  rw [applyRoute, if_pos ⟨h1, h3⟩, pyIndex_of_nonneg h0 h1, pyIndex_of_nonneg h2 h3]

theorem applyRoute_skip (nIn nOut : Nat) (post outs : List (List ℝ))
    (e : (Int × Int) × ℝ) (h : ¬ (e.1.1 < (nIn : Int) ∧ e.1.2 < (nOut : Int))) :
    applyRoute nIn nOut post outs e = some outs := by
  rw [applyRoute, if_neg h]

theorem routeSampleSum_nil (post : List (List ℝ)) (o k : Nat) :
    routeSampleSum post [] o k = 0 := rfl

theorem routeSampleSum_cons (post : List (List ℝ)) (e : (Int × Int) × ℝ)
    (R : List ((Int × Int) × ℝ)) (o k : Nat) :
    routeSampleSum post (e :: R) o k =
      (if e.1.2 = (o : Int) then (post.getD e.1.1.toNat []).getD k 0 * e.2 else 0) +
        routeSampleSum post R o k := by
  rw [routeSampleSum, List.map_cons, List.sum_cons, routeSampleSum]

theorem applyRoutes_wf (nIn nOut frames : Nat) (post : List (List ℝ))
    (hpost : ∀ i, i < nIn → (post.getD i []).length = frames) :
    ∀ (R : List ((Int × Int) × ℝ)) (outs : List (List ℝ)),
    wfRoutes nIn nOut R → outs.length = nOut → (∀ b ∈ outs, b.length = frames) →
    ∃ outs2, applyRoutes nIn nOut post outs R = some outs2 ∧
      outs2.length = nOut ∧ (∀ b ∈ outs2, b.length = frames) ∧
      ∀ o k, o < nOut → k < frames →
        getSample outs2 o k = getSample outs o k + routeSampleSum post R o k := by
  intro R
  induction R with
  | nil =>
    intro outs hwf hlen hblen
    exact ⟨outs, rfl, hlen, hblen, fun o k ho hk => by
      rw [routeSampleSum_nil, add_zero]⟩
  | cons e rest ih =>
    intro outs hwf hlen hblen
    obtain ⟨h0, h1, h2, h3⟩ := hwf e (List.mem_cons_self e rest)
    have hoN : e.1.2.toNat < nOut := by omega
    have hiN : e.1.1.toNat < nIn := by omega
    have hblen_o : (outs.getD e.1.2.toNat []).length = frames := by
      apply hblen
      have : e.1.2.toNat < outs.length := by omega
      rw [List.getD_eq_getElem?_getD, List.getElem?_eq_getElem this]
      exact List.getElem_mem this
    have hpost_i : (post.getD e.1.1.toNat []).length = frames := hpost _ hiN
    have hlen1 : (outs.set e.1.2.toNat
        (addBuf (outs.getD e.1.2.toNat []) (scaleBuf e.2 (post.getD e.1.1.toNat [])))).length
        = nOut := by rw [List.length_set]; exact hlen
    have hbuflen : (addBuf (outs.getD e.1.2.toNat [])
        (scaleBuf e.2 (post.getD e.1.1.toNat []))).length = frames := by
      rw [addBuf, List.length_zipWith, hblen_o, length_scaleBuf, hpost_i, Nat.min_self]
    have hblen1 : ∀ b ∈ outs.set e.1.2.toNat
        (addBuf (outs.getD e.1.2.toNat []) (scaleBuf e.2 (post.getD e.1.1.toNat []))),
        b.length = frames := by
      intro b hb
      rcases List.mem_or_eq_of_mem_set hb with h | h
      · exact hblen b h
      · rw [h]; exact hbuflen
    obtain ⟨outs2, heq, hl2, hb2, hsample⟩ :=
      ih _ (fun x hx => hwf x (List.mem_cons_of_mem e hx)) hlen1 hblen1
    have hstep : applyRoutes nIn nOut post outs (e :: rest) =
        applyRoutes nIn nOut post (outs.set e.1.2.toNat
          (addBuf (outs.getD e.1.2.toNat []) (scaleBuf e.2 (post.getD e.1.1.toNat [])))) rest := by
      rw [applyRoutes, applyRoute_wf nIn nOut post outs e h0 h1 h2 h3]
    refine ⟨outs2, hstep.trans heq, hl2, hb2, ?_⟩
    intro o k ho hk
    rw [hsample o k ho hk, routeSampleSum_cons]
    rcases Nat.decEq e.1.2.toNat o with hne | heo
    · -- this route writes a different output
      rw [getSample, getD_set_ne _ _ _ hne, if_neg (by omega)]
      show getSample outs o k + _ = getSample outs o k + (0 + _)
      rw [zero_add]
    · -- this route writes output o
      subst heo
      rw [getSample, getD_set_self _ _ _ (by omega), if_pos (by omega)]
      rw [addBuf, getD_zipWith _ _ _ (by omega) (by rw [length_scaleBuf]; omega),
        getD_scaleBuf _ _ (by omega)]
      simp only [getSample]
      ring

theorem post_buffers_getD (s : MatrixAudioEngine) (inputs : List (List ℝ)) {i : Nat}
    (hi : i < s.num_inputs) :
    (s.post_buffers inputs).getD i [] =
      scaleBuf (effective_gain s.input_gains s.input_mutes i) (inputs.getD i []) := by
  rw [MatrixAudioEngine.post_buffers, getD_range_map hi]

theorem matrixProcess_wf (clip : ℝ → ℝ) (s : MatrixAudioEngine)
    (inputs : List (List ℝ)) (frames : Nat)
    (hwf : wfRoutes s.num_inputs s.num_outputs s.routing_matrix)
    (hin : ∀ i, i < s.num_inputs → (inputs.getD i []).length = frames) :
    ∃ outs2, applyRoutes s.num_inputs s.num_outputs (s.post_buffers inputs)
        (List.replicate s.num_outputs (zeroBuf frames)) s.routing_matrix = some outs2 ∧
      s.process clip inputs frames = some
        ({ s with
            rec_queues := (if s.record_enabled ∧ s.rec_started then
                recAll 16 s.rec_queues s.rec_drop_counts inputs s.num_inputs
              else (s.rec_queues, s.rec_drop_counts)).1,
            rec_drop_counts := (if s.record_enabled ∧ s.rec_started then
                recAll 16 s.rec_queues s.rec_drop_counts inputs s.num_inputs
              else (s.rec_queues, s.rec_drop_counts)).2 },
          (List.range s.num_outputs).map (fun o =>
            (scaleBuf (effective_gain s.output_gains s.output_mutes o)
              (outs2.getD o [])).map clip)) ∧
      outs2.length = s.num_outputs ∧ (∀ b ∈ outs2, b.length = frames) ∧
      ∀ o k, o < s.num_outputs → k < frames →
        getSample outs2 o k = routeSampleSum (s.post_buffers inputs) s.routing_matrix o k := by
  have hpost : ∀ i, i < s.num_inputs →
      ((s.post_buffers inputs).getD i []).length = frames := by
    intro i hi
    rw [post_buffers_getD s inputs hi, length_scaleBuf]
    exact hin i hi
  obtain ⟨outs2, happ, hl, hb, hs⟩ := applyRoutes_wf s.num_inputs s.num_outputs frames
    (s.post_buffers inputs) hpost s.routing_matrix
    (List.replicate s.num_outputs (zeroBuf frames)) hwf (by simp)
    (fun b hb => by rw [List.eq_of_mem_replicate hb, zeroBuf, List.length_replicate])
  refine ⟨outs2, happ, ?_, hl, hb, ?_⟩
  · rw [MatrixAudioEngine.process, happ]
  · intro o k ho hk
    rw [hs o k ho hk, getSample, getD_replicate ho, getD_zeroBuf hk, zero_add]

/-- Sample-level description of the matrix process outputs: sample `k` of
output `o` is the soft-clipped, output-gain-scaled route accumulation. -/
theorem matrixProcess_sample (clip : ℝ → ℝ) (s : MatrixAudioEngine)
    (inputs : List (List ℝ)) (frames : Nat)
    (hwf : wfRoutes s.num_inputs s.num_outputs s.routing_matrix)
    (hin : ∀ i, i < s.num_inputs → (inputs.getD i []).length = frames)
    {o k : Nat} (ho : o < s.num_outputs) (hk : k < frames) :
    (s.process clip inputs frames).map (fun p => getSample p.2 o k) =
      some (clip (routeSampleSum (s.post_buffers inputs) s.routing_matrix o k *
        effective_gain s.output_gains s.output_mutes o)) := by
  obtain ⟨outs2, happ, hproc, hl, hb, hs⟩ := matrixProcess_wf clip s inputs frames hwf hin
  rw [hproc]
  have hblen : (outs2.getD o []).length = frames := by
    apply hb
    have : o < outs2.length := by omega
    rw [List.getD_eq_getElem?_getD, List.getElem?_eq_getElem this]
    exact List.getElem_mem this
  show some (getSample ((List.range s.num_outputs).map fun o =>
    (scaleBuf (effective_gain s.output_gains s.output_mutes o) (outs2.getD o [])).map clip) o k) = _
  rw [getSample, getD_range_map ho]
  rw [getD_map _ clip (by rw [length_scaleBuf]; omega) 0 0,
    getD_scaleBuf _ _ (by omega)]
  have hsum := hs o k ho hk
  rw [getSample] at hsum
  rw [hsum]

/-- The hyperbolic tangent moves every nonzero sample: at 1/2 it is not
the identity (equality would force `e = 3`). -/
theorem tanh_half_ne_half : Real.tanh ((1:ℝ)/2) ≠ (1:ℝ)/2 := by
  intro h
  rw [Real.tanh_eq_sinh_div_cosh, Real.sinh_eq, Real.cosh_eq] at h
  have ha : (0:ℝ) < Real.exp (1/2) := Real.exp_pos _
  have hb : (0:ℝ) < Real.exp (-(1/2 : ℝ)) := Real.exp_pos _
  have hinv : Real.exp (-(1/2 : ℝ)) * Real.exp ((1:ℝ)/2) = 1 := by
    rw [← Real.exp_add]; norm_num
  have he : Real.exp 1 = Real.exp ((1:ℝ)/2) * Real.exp ((1:ℝ)/2) := by
    rw [← Real.exp_add]; norm_num
  have hlt := Real.exp_one_lt_d9
  have hden : (0:ℝ) < Real.exp ((1:ℝ)/2) + Real.exp (-(1/2:ℝ)) := by positivity
  field_simp at h
  nlinarith [h, hinv, he, ha, hb, hlt]

/-- The end-to-end scenario state of the spec: input 0 routed to output 0
at gain 1.0 and to output 1 at gain 0.5, unit gains, nothing muted,
recording inactive. -/
noncomputable def matrixScenario : MatrixAudioEngine :=
  { matrixA with routing_matrix := [((0, 0), 1), ((0, 1), 1/2)] }

theorem scenario_eval (x : ℝ) :
    matrixScenario.process Real.tanh [[x], [0]] 1 =
      some (matrixScenario, [[Real.tanh x], [Real.tanh (x * (1/2))]]) := by
  show MatrixAudioEngine.process Real.tanh matrixScenario [[x], [0]] 1 = _
  norm_num [MatrixAudioEngine.process, matrixScenario, matrixA, applyRoutes, applyRoute,
    pyIndex, MatrixAudioEngine.post_buffers, effective_gain, scaleBuf, addBuf, zeroBuf,
    List.range_succ]

theorem matrixScenario_wf :
    wfRoutes matrixScenario.num_inputs matrixScenario.num_outputs
      matrixScenario.routing_matrix := by
  intro e he
  rcases List.mem_cons.mp he with h | h
  · subst h; refine ⟨by norm_num, ?_, by norm_num, ?_⟩ <;> norm_num [matrixScenario, matrixA]
  · rw [List.mem_singleton.mp h]
    refine ⟨by norm_num, ?_, by norm_num, ?_⟩ <;> norm_num [matrixScenario, matrixA]

/-- C2 (amended): every output sample of `MatrixAudioEngine._process`
equals `tanh(eff_out_o * Σ over routes (i,o,g) of post[i]*g)` where
`post[i]` is the input scaled by its effective input gain; an output with
no routes into it emits silence (`tanh 0 = 0`); and the spec's end-to-end
scenario (input 0 → output 0 at gain 1.0 and → output 1 at gain 0.5)
yields output 0 = `tanh(x)` and output 1 = `tanh(x/2)` per sample — the
soft clip applies, so these equal the input and half the input only
approximately, exactly just at zero samples (see the counterexample). -/
theorem C2_matrix_formula :
    (∀ (s : MatrixAudioEngine) (inputs : List (List ℝ)) (frames : Nat),
        wfRoutes s.num_inputs s.num_outputs s.routing_matrix →
        (∀ i, i < s.num_inputs → (inputs.getD i []).length = frames) →
        ∀ o k, o < s.num_outputs → k < frames →
          ((s.process Real.tanh inputs frames).map (fun p => getSample p.2 o k) =
            some (Real.tanh (routeSampleSum (s.post_buffers inputs) s.routing_matrix o k *
              effective_gain s.output_gains s.output_mutes o)) ∧
          ((∀ e ∈ s.routing_matrix, e.1.2 ≠ (o : Int)) →
            (s.process Real.tanh inputs frames).map (fun p => getSample p.2 o k) =
              some 0))) ∧
    (∀ x : ℝ, matrixScenario.process Real.tanh [[x], [0]] 1 =
      some (matrixScenario, [[Real.tanh x], [Real.tanh (x * (1/2))]])) := by
  constructor
  · intro s inputs frames hwf hin o k ho hk
    refine ⟨matrixProcess_sample Real.tanh s inputs frames hwf hin ho hk, ?_⟩
    intro hno
    rw [matrixProcess_sample Real.tanh s inputs frames hwf hin ho hk]
    have hzero : routeSampleSum (s.post_buffers inputs) s.routing_matrix o k = 0 := by
      rw [routeSampleSum]
      apply List.sum_eq_zero
      intro y hy
      obtain ⟨e, he, hfe⟩ := List.mem_map.mp hy
      rw [if_neg (hno e he)] at hfe
      exact hfe.symm
    rw [hzero, zero_mul, Real.tanh_zero]
  · exact scenario_eval

/-- Witness for C2: the per-sample formula instantiated on the concrete
scenario engine with a concrete one-frame input block. -/
theorem C2_matrix_formula_witness :
    (matrixScenario.process Real.tanh [[3], [0]] 1).map (fun p => getSample p.2 0 0) =
      some (Real.tanh (routeSampleSum (matrixScenario.post_buffers [[3], [0]])
        matrixScenario.routing_matrix 0 0 *
          effective_gain matrixScenario.output_gains matrixScenario.output_mutes 0)) :=
  (C2_matrix_formula.1 matrixScenario [[3], [0]] 1 matrixScenario_wf (by decide) 0 0
    (by decide) (by decide)).1

/-- Counterexample for C2: in the scenario, feeding sample 1/2 into input
0 produces `tanh(1/2)` on output 0, which is not the input sample 1/2 —
the tanh soft clip makes "output 1 equal to the input" false at every
nonzero amplitude, however small. -/
theorem C2_counterexample :
    matrixScenario.process Real.tanh [[(1:ℝ)/2], [0]] 1 =
      some (matrixScenario, [[Real.tanh ((1:ℝ)/2)], [Real.tanh ((1:ℝ)/2 * (1/2))]]) ∧
    Real.tanh ((1:ℝ)/2) ≠ (1:ℝ)/2 :=
  ⟨scenario_eval ((1:ℝ)/2), tanh_half_ne_half⟩

theorem getD_scaleBuf_zero (b : List ℝ) (k : Nat) : (scaleBuf 0 b).getD k 0 = 0 := by
  rcases Nat.lt_or_ge k b.length with h | h
  · rw [getD_scaleBuf _ _ h, mul_zero]
  · rw [List.getD_eq_default _ _ (by rw [length_scaleBuf]; omega)]

theorem routeSampleSum_drop_input (post : List (List ℝ)) (R : List ((Int × Int) × ℝ))
    (i o k : Nat) (hz : (post.getD i []).getD k 0 = 0) :
    routeSampleSum post R o k =
      routeSampleSum post (R.filter (fun e => e.1.1 ≠ (i : Int))) o k := by
  induction R with
  | nil => rfl
  | cons e rest ih =>
    by_cases hei : e.1.1 = (i : Int)
    · rw [routeSampleSum_cons, List.filter_cons_of_neg (by simpa using hei)]
      have htoNat : e.1.1.toNat = i := by omega
      rw [htoNat, hz, zero_mul, ite_self, zero_add]
      exact ih
    · rw [routeSampleSum_cons, List.filter_cons_of_pos (by simpa using hei),
        routeSampleSum_cons]
      rw [ih]

/-- C3: a muted channel contributes nothing to the outputs — in the simple
engine a muted selected channel silences every output, and in the matrix
engine the outputs are sample-for-sample what they would be with all of
that input's routes deleted — while the block enqueued for recording in
the same callback is the raw input buffer, captured pre-gain and pre-mute
and entirely independent of the gain and mute vectors, in both engines. -/
theorem C3_mute_vs_recording :
    (∀ (s : AudioEngine) (inputs : List (List ℝ)) (frames : Nat),
        0 ≤ s.selected_ch → s.selected_ch < (s.num_inputs : Int) →
        s.mutes.getD s.selected_ch.toNat false = true →
        ∀ buf ∈ (s.process inputs frames).2, ∀ x ∈ buf, x = 0) ∧
    (∀ (s : MatrixAudioEngine) (inputs : List (List ℝ)) (frames i : Nat),
        wfRoutes s.num_inputs s.num_outputs s.routing_matrix →
        (∀ j, j < s.num_inputs → (inputs.getD j []).length = frames) →
        i < s.num_inputs → s.input_mutes.getD i false = true →
        ∀ o k, o < s.num_outputs → k < frames →
          (s.process Real.tanh inputs frames).map (fun p => getSample p.2 o k) =
            (MatrixAudioEngine.process Real.tanh
              { s with routing_matrix :=
                  s.routing_matrix.filter (fun e => e.1.1 ≠ (i : Int)) }
              inputs frames).map (fun p => getSample p.2 o k)) ∧
    (∀ (s : AudioEngine) (g' : List ℝ) (m' : List Bool) (inputs : List (List ℝ))
        (frames : Nat),
        (({ s with gains := g', mutes := m' } : AudioEngine).process inputs
            frames).1.rec_queues = (s.process inputs frames).1.rec_queues ∧
        (({ s with gains := g', mutes := m' } : AudioEngine).process inputs
            frames).1.rec_drop_counts = (s.process inputs frames).1.rec_drop_counts) ∧
    (∀ (s : AudioEngine) (inputs : List (List ℝ)) (frames i : Nat),
        s.record_enabled = true → s.rec_started = true →
        i < s.num_inputs → s.num_inputs ≤ s.rec_queues.length →
        s.num_inputs ≤ s.rec_drop_counts.length →
        (s.rec_queues.getD i []).length < s.record_queue_size →
        (s.process inputs frames).1.rec_queues.getD i [] =
          s.rec_queues.getD i [] ++ [inputs.getD i []]) ∧
    (∀ (s : MatrixAudioEngine) (g' : List ℝ) (m' : List Bool) (inputs : List (List ℝ))
        (frames : Nat),
        wfRoutes s.num_inputs s.num_outputs s.routing_matrix →
        (∀ j, j < s.num_inputs → (inputs.getD j []).length = frames) →
        (s.process Real.tanh inputs frames).map
            (fun p => (p.1.rec_queues, p.1.rec_drop_counts)) =
          (MatrixAudioEngine.process Real.tanh
            { s with input_gains := g', input_mutes := m' } inputs frames).map
              (fun p => (p.1.rec_queues, p.1.rec_drop_counts))) ∧
    (∀ (s : MatrixAudioEngine) (inputs : List (List ℝ)) (frames i : Nat),
        wfRoutes s.num_inputs s.num_outputs s.routing_matrix →
        (∀ j, j < s.num_inputs → (inputs.getD j []).length = frames) →
        s.record_enabled = true → s.rec_started = true →
        i < s.num_inputs → s.num_inputs ≤ s.rec_queues.length →
        s.num_inputs ≤ s.rec_drop_counts.length →
        (s.rec_queues.getD i []).length < 16 →
        (s.process Real.tanh inputs frames).map (fun p => p.1.rec_queues.getD i []) =
          some (s.rec_queues.getD i [] ++ [inputs.getD i []])) := by
  refine ⟨?_, ?_, ?_, ?_, ?_, ?_⟩
  · -- simple engine: muted selected channel silences every output
    intro s inputs frames h0 h1 hm
    rw [process_snd, AudioEngine.route_buf, if_pos ⟨h0, h1⟩, route_outputs_some]
    intro buf hbuf x hx
    rw [List.eq_of_mem_replicate hbuf] at hx
    rw [effective_gain, if_pos hm] at hx
    obtain ⟨y, _, hy⟩ := List.mem_map.mp hx
    rw [← hy, mul_zero]
  · -- matrix engine: muted input equals deleting all its routes
    intro s inputs frames i hwf hin hi hm o k ho hk
    have hz : ((s.post_buffers inputs).getD i []).getD k 0 = 0 := by
      rw [post_buffers_getD s inputs hi, effective_gain, if_pos hm]
      exact getD_scaleBuf_zero _ _
    have hwf2 : wfRoutes s.num_inputs s.num_outputs
        (s.routing_matrix.filter (fun e => e.1.1 ≠ (i : Int))) :=
      fun e he => hwf e (List.mem_of_mem_filter he)
    rw [matrixProcess_sample Real.tanh s inputs frames hwf hin ho hk,
      matrixProcess_sample Real.tanh
        { s with routing_matrix := s.routing_matrix.filter (fun e => e.1.1 ≠ (i : Int)) }
        inputs frames hwf2 hin ho hk]
    rw [routeSampleSum_drop_input _ _ i o k hz]
    rfl
  · -- simple engine: recording ignores the gain and mute vectors
    exact fun s g' m' inputs frames => ⟨rfl, rfl⟩
  · -- simple engine: the enqueued block is the raw input buffer
    intro s inputs frames i h1 h2 hi hq hd hspace
    rw [process_fst_rec s inputs frames h1 h2]
    have hchar := recAll_getD s.record_queue_size s.rec_queues s.rec_drop_counts inputs
      hi hq hd
    rw [recEnqueue, if_pos hspace] at hchar
    exact hchar.1
  · -- matrix engine: recording ignores the input gain and mute vectors
    intro s g' m' inputs frames hwf hin
    obtain ⟨o1, _, hp1, _⟩ := matrixProcess_wf Real.tanh s inputs frames hwf hin
    obtain ⟨o2, _, hp2, _⟩ := matrixProcess_wf Real.tanh
      { s with input_gains := g', input_mutes := m' } inputs frames hwf hin
    rw [hp1, hp2]
    rfl
  · -- matrix engine: the enqueued block is the raw input buffer
    intro s inputs frames i hwf hin h1 h2 hi hq hd hspace
    obtain ⟨o1, _, hp1, _⟩ := matrixProcess_wf Real.tanh s inputs frames hwf hin
    rw [hp1]
    show some ((if s.record_enabled = true ∧ s.rec_started = true then
        recAll 16 s.rec_queues s.rec_drop_counts inputs s.num_inputs
      else (s.rec_queues, s.rec_drop_counts)).1.getD i []) = _
    rw [if_pos ⟨h1, h2⟩]
    have hchar := recAll_getD 16 s.rec_queues s.rec_drop_counts inputs hi hq hd
    rw [recEnqueue, if_pos hspace] at hchar
    rw [hchar.1]

/-- Witness for C3: the raw-block conjunct evaluated on the concrete
recording engine — one callback appends the unmodified input block of
channel 0 to its queue. -/
theorem C3_mute_vs_recording_witness :
    (engineA.process [[7], [8]] 1).1.rec_queues.getD 0 [] =
      engineA.rec_queues.getD 0 [] ++ [[7]] :=
  C3_mute_vs_recording.2.2.2.1 engineA [[7], [8]] 1 0 rfl rfl (by decide) (by decide)
    (by decide) (by decide)

/-- C10 (amended): the routing loop of `MatrixAudioEngine._process` skips
every entry whose input index is ≥ `num_inputs` or whose output index is ≥
`num_outputs` (the guard is a signed comparison with no lower bound); an
in-range entry `(i, o, g)` reads exactly input buffer `i` and rewrites
exactly output buffer `o`; and in-range-ness of every table entry is an
invariant of `set_route`, `clear_route` and `clear_all_routes`, so tables
reachable through those three mutations alone make the accumulation touch
only the channels named by each route. (`load_routing_preset` does not
validate, and a negative preset index passes the guard and wraps — see the
counterexample.) -/
theorem C10_route_bounds :
    (∀ (nIn nOut : Nat) (post outs : List (List ℝ)) (e : (Int × Int) × ℝ),
        ¬ (e.1.1 < (nIn : Int) ∧ e.1.2 < (nOut : Int)) →
        applyRoute nIn nOut post outs e = some outs) ∧
    (∀ (nIn nOut : Nat) (post outs : List (List ℝ)) (e : (Int × Int) × ℝ),
        0 ≤ e.1.1 → e.1.1 < (nIn : Int) → 0 ≤ e.1.2 → e.1.2 < (nOut : Int) →
        applyRoute nIn nOut post outs e = some (outs.set e.1.2.toNat
          (addBuf (outs.getD e.1.2.toNat [])
            (scaleBuf e.2 (post.getD e.1.1.toNat []))))) ∧
    (∀ (s : MatrixAudioEngine) (i o : Int) (g : ℝ),
        wfRoutes s.num_inputs s.num_outputs s.routing_matrix →
        wfRoutes s.num_inputs s.num_outputs (s.set_route i o g).routing_matrix) ∧
    (∀ (s : MatrixAudioEngine) (i o : Int),
        wfRoutes s.num_inputs s.num_outputs s.routing_matrix →
        wfRoutes s.num_inputs s.num_outputs (s.clear_route i o).routing_matrix) ∧
    (∀ s : MatrixAudioEngine,
        wfRoutes s.num_inputs s.num_outputs s.clear_all_routes.routing_matrix) := by
  refine ⟨applyRoute_skip, applyRoute_wf, ?_, ?_, ?_⟩
  · intro s i o g hwf
    rw [MatrixAudioEngine.set_route]
    split
    · rename_i hrange
      split
      · intro e he
        rcases mem_dictSet he with h | h
        · exact hwf e h
        · rw [h]
          exact ⟨hrange.1, hrange.2.1, hrange.2.2.1, hrange.2.2.2⟩
      · intro e he
        exact hwf e (mem_dictPop.mp he).1
    · exact hwf
  · intro s i o hwf e he
    exact hwf e (mem_dictPop.mp he).1
  · intro s e he
    exact absurd he (List.not_mem_nil e)

/-- Witness for C10: an in-range route applied on concrete buffers. -/
theorem C10_route_bounds_witness :
    applyRoute 2 2 [[1], [2]] [[0], [0]] ((0, 1), 1) =
      some ([[0], [0]].set (1 : Int).toNat
        (addBuf ([[0], [0]].getD (1 : Int).toNat [])
          (scaleBuf 1 ([[1], [2]].getD (0 : Int).toNat [])))) :=
  C10_route_bounds.2.1 2 2 [[1], [2]] [[0], [0]] ((0, 1), 1) (by decide) (by decide)
    (by decide) (by decide)

/-- Counterexample for C10: `load_routing_preset` accepts the out-of-range
entry `(-1, 0)`; the `_process` guard passes it (`-1 < num_inputs`, no
lower bound is checked) and Python's negative indexing wraps, so the route
accumulates input buffer 1 — a channel other than its named input `-1` —
into output 0 instead of being skipped. -/
theorem C10_counterexample :
    (matrixA.load_routing_preset [((some (-1), some 0), 1)]).routing_matrix =
      [(((-1 : Int), (0 : Int)), (1 : ℝ))] ∧
    ¬ (0 ≤ (-1 : Int)) ∧
    applyRoute 2 2 [[1], [2]] [[0], [0]] (((-1 : Int), (0 : Int)), (1 : ℝ)) =
      some [[2], [0]] ∧
    some [[2], [0]] ≠ some [[(0 : ℝ)], [0]] := by
  refine ⟨rfl, by norm_num, ?_, ?_⟩
  · norm_num [applyRoute, pyIndex, addBuf, scaleBuf]
  · simp only [ne_eq, Option.some.injEq, List.cons.injEq, and_true]
    norm_num

end Bullen
